import Mathlib

/-!
# Verification of the arborist branch-cleanup core (`src/arborist/git.py`)

Shallow embedding of the classifier and cleaner in `GitRepo`
(`get_branch_status`, `_get_branches_to_delete`, `_delete_branch`, `clean`).

The version-control backend (GitPython / the `git` CLI) is an external
collaborator; every underlying git query the code issues is modelled as a
field of an oracle record, with `Option` encoding a query that raises
`GitCommandError` (`none` = the command failed).  The classifier and the
cleaner are then pure functions of the oracle, translated line by line
from the source.
-/

namespace Arborist

/-! ## String helpers

The Python code manipulates branch names with `str.startswith`,
`str.endswith`, `split("/", 1)`, `str.strip` and substring tests.
These are modelled over `String.data` (lists of characters) so that all
theorems evaluate inside the kernel.
-/

/-- `s.startswith p` on Python strings. -/
def strStarts (s p : String) : Bool :=
  p.data.isPrefixOf s.data

/-- `s.endswith p` on Python strings. -/
def strEnds (s p : String) : Bool :=
  p.data.isSuffixOf s.data

/-- `s.split("/", 1)[1]`: everything after the first `/`.  The source only
calls this under a `startswith("origin/")` guard, so a slash exists. -/
def afterSlash (s : String) : String :=
  String.mk ((s.data.dropWhile (fun c => !(c = '/'))).drop 1)

/-- `s.split("/", 1)[0]`: everything before the first `/`. -/
def beforeSlash (s : String) : String :=
  String.mk (s.data.takeWhile (fun c => !(c = '/')))

/-- Whitespace as recognised by Python `str.strip()`: the ASCII
whitespace and separator control characters together with the Unicode
space separators (NEL, NBSP, OGHAM SPACE MARK, the EN QUAD–HAIR SPACE
block, LINE/PARAGRAPH SEPARATOR, NARROW NBSP, MMSP, IDEOGRAPHIC
SPACE). -/
def pyWhitespace (c : Char) : Bool :=
  c = ' ' || c = '\t' || c = '\n' || c = '\r' || c = '\x0b' || c = '\x0c'
    || c = '\x1c' || c = '\x1d' || c = '\x1e' || c = '\x1f'
    || c = '\x85' || c = '\xa0' || c = '\u1680'
    || ('\u2000' ≤ c && c ≤ '\u200a')
    || c = '\u2028' || c = '\u2029' || c = '\u202f' || c = '\u205f'
    || c = '\u3000'

/-- Python `str.strip()`: drop whitespace from both ends. -/
def pyStrip (s : String) : String :=
  String.mk (((s.data.dropWhile pyWhitespace).reverse.dropWhile pyWhitespace).reverse)

/-- Python `needle in hay` substring containment. -/
def strContains (hay needle : String) : Bool :=
  hay.data.tails.any (fun t => needle.data.isPrefixOf t)

/-- Split a character list at the first `]`, returning the part before
it and the part after it, or `none` when no `]` occurs. -/
def splitAtRBrack : List Char → Option (List Char × List Char)
  | [] => none
  | ']' :: rest => some ([], rest)
  | c :: rest =>
    match splitAtRBrack rest with
    | none => none
    | some (a, b) => some (c :: a, b)

/-- Parse a `fnmatch` character class from the characters following a
`[`: a leading `!` negates; a `]` directly after the `[` (or after the
`!`) is a literal member; the class ends at the next `]`.  Returns
`(negated, body, rest-of-pattern)`, or `none` when the class is
unterminated (in which case `fnmatch` treats the `[` as a literal). -/
def parseClass (ps : List Char) : Option (Bool × List Char × List Char) :=
  match ps with
  | '!' :: ']' :: ps2 =>
    match splitAtRBrack ps2 with
    | none => none
    | some (body, rest) => some (true, ']' :: body, rest)
  | '!' :: ps1 =>
    match splitAtRBrack ps1 with
    | none => none
    | some (body, rest) => some (true, body, rest)
  | ']' :: ps1 =>
    match splitAtRBrack ps1 with
    | none => none
    | some (body, rest) => some (false, ']' :: body, rest)
  | _ =>
    match splitAtRBrack ps with
    | none => none
    | some (body, rest) => some (false, body, rest)

/-- Membership of a character in a class body, with `fnmatch`'s range
rule: `a-b` matches code points between `a` and `b` inclusive (an
inverted range such as `z-a` matches nothing), while a `-` at the start
or end of the body is a literal hyphen. -/
def classMember : List Char → Char → Bool
  | [], _ => false
  | [a], c => a = c
  | [a, b], c => a = c || b = c
  | a :: '-' :: b :: rest, c => (a ≤ c && c ≤ b) || classMember rest c
  | a :: rest, c => a = c || classMember rest c

/-- One step of glob matching, structurally recursive on a fuel bounded
by the pattern length (each step consumes at least one pattern
character, so the wrapper's fuel never runs out; the fuel exists only to
make the recursion structural, since a character class consumes a
computed number of pattern characters). -/
def globMatchAux : Nat → List Char → List Char → Bool
  | _, [], s => s.isEmpty
  | 0, _ :: _, _ => false
  | fuel + 1, '*' :: ps, s => s.tails.any (fun t => globMatchAux fuel ps t)
  | fuel + 1, '?' :: ps, s =>
    match s with
    | [] => false
    | _ :: cs => globMatchAux fuel ps cs
  | fuel + 1, '[' :: ps, s =>
    (match parseClass ps with
     | none =>
       match s with
       | [] => false
       | c :: cs => '[' = c && globMatchAux fuel ps cs
     | some (negated, body, rest) =>
       match s with
       | [] => false
       | c :: cs => (classMember body c != negated) && globMatchAux fuel rest cs)
  | fuel + 1, p :: ps, s =>
    match s with
    | [] => false
    | c :: cs => p = c && globMatchAux fuel ps cs

/-- Shell-style glob matching over character lists, modelling Python's
`fnmatch.fnmatch` on a case-sensitive filesystem: `*` matches any
character sequence, `?` any single character, `[seq]` a character of the
class (with `!` negation, ranges, a leading `]` as a literal member, an
unterminated `[` as a literal character, and an empty effective range
matching nothing); every other character matches itself. -/
def globMatch (p s : List Char) : Bool :=
  globMatchAux (p.length + 1) p s

/-- `fnmatch(name, pattern)` on strings. -/
def fnmatchStr (name pattern : String) : Bool :=
  globMatch pattern.data name.data

/-- A branch's short name: the name with an `origin/` remote marker
stripped, the name itself otherwise. -/
def shortName (name : String) : String :=
  if strStarts name "origin/" then afterSlash name else name

/-! ## Data model -/

/-- `BranchStatus` enumeration from the source.  `empty` is the sentinel
status the source assigns to the main branch. -/
inductive BranchStatus where
  | merged
  | unmerged
  | gone
  | empty
deriving DecidableEq, Repr

/-- `GitError`: the error raised by `GitRepo` operations. -/
structure GitError where
  message : String
  needsConfirmation : Bool := false
deriving DecidableEq, Repr

/-- `true` iff an operation did not raise `GitError`. -/
def exceptOk {α : Type} : Except GitError α → Bool
  | .ok _ => true
  | .error _ => false

/-- Answers of the per-branch git queries issued while classifying one
branch `b`.  `none` models a `GitCommandError`.

* `configRemote` — `git config branch.b.remote`
* `configMerge` — `git config branch.b.merge`
* `remoteRefResolves` — whether `git rev-parse remote/branch` (the
  configured upstream ref) succeeds
* `vvListing` — output of `git branch -vv --list b`
* `revListCountSelf` — `git rev-list --count b` (the count the source
  stores in its `unpushed` variable)
* `revParseTip` — `git rev-parse b`
* `revParseMain` — `git rev-parse main`
* `ancestorExitOk` — whether `git merge-base --is-ancestor tip main_tip`
  exits with status 0 (queried only after both tips resolved)
* `revListCountRange` — `git rev-list --count main..b` -/
structure BranchQueries where
  configRemote : Option String
  configMerge : Option String
  remoteRefResolves : Bool
  vvListing : Option String
  revListCountSelf : Option Nat
  revParseTip : Option String
  revParseMain : Option String
  ancestorExitOk : Bool
  revListCountRange : Option Nat

/-- Repository-level oracle: every external answer `get_branch_status`
and its callees consume.

* `fetchOk` — whether `fetch_from_remotes()` completes (it raises
  `GitError` otherwise; its internals touch only the external remotes)
* `behindMainCount` — `git rev-list --count main..origin/main` stripped
  output, `none` when the command fails
* `currentBranch` — `get_current_branch_name()`: `none` models the
  lookup raising `GitError`, `some ""` a detached HEAD
* `localListing` — lines of `git branch --format=%(refname:short)`
* `remoteListing` — lines of `git branch -r --format=%(refname:short)`
* `queries` — the per-branch query answers -/
structure GitOracle where
  fetchOk : Bool
  behindMainCount : Option String
  currentBranch : Option String
  localListing : Option (List String)
  remoteListing : Option (List String)
  queries : String → BranchQueries

/-! ## Classification snapshot as a Python dict

`get_branch_status` builds `status: dict[str, BranchStatus]`.  A dict is
modelled as an insertion-ordered association list with overwriting
assignment. -/

/-- `k in status`. -/
def statusHasKey (m : List (String × BranchStatus)) (k : String) : Bool :=
  m.any (fun p => p.1 = k)

/-- `status[k] = v` (overwrite in place, append otherwise). -/
def statusInsert (m : List (String × BranchStatus)) (k : String) (v : BranchStatus) :
    List (String × BranchStatus) :=
  if statusHasKey m k then
    m.map (fun p => if p.1 = k then (k, v) else p)
  else
    m ++ [(k, v)]

/-- `status.get(k)`. -/
def statusLookup (m : List (String × BranchStatus)) (k : String) : Option BranchStatus :=
  (m.find? (fun p => p.1 = k)).map (fun p => p.2)

/-! ## Classifier (`get_branch_status`, source lines 149–307) -/

/-- The gone-detection step, source lines 199–240.  Returns `some s` when
the step classified the branch and executed `continue`; `none` when
control fell through to the merge check (no remote-tracking
configuration, a config read failing, a merge ref of unexpected shape,
or an upstream ref that still resolves). -/
def goneCheck (q : BranchQueries) : Option BranchStatus :=
  match q.configRemote with
  | none => none
  | some trackingConfig =>
    if trackingConfig = "" then none
    else
      match q.configMerge with
      | none => none
      | some mergeRef =>
        if strStarts mergeRef "refs/heads/" then
          if q.remoteRefResolves then none
          else
            some (match q.vvListing with
              | none => .unmerged
              | some branchInfo =>
                if strContains branchInfo ": gone]" then .gone
                else
                  match q.revListCountSelf with
                  | none => .unmerged
                  | some unpushed => if unpushed = 0 then .gone else .unmerged)
        else none

/-- The merge check, source lines 242–266: resolve both tips, test the
ancestor relation, fall back to counting `main..branch`, and default to
`unmerged` on any failure. -/
def mergeCheck (q : BranchQueries) : BranchStatus :=
  match q.revParseTip with
  | none => .unmerged
  | some _ =>
    match q.revParseMain with
    | none => .unmerged
    | some _ =>
      if q.ancestorExitOk then .merged
      else
        match q.revListCountRange with
        | none => .unmerged
        | some unmergedCommits => if unmergedCommits = 0 then .merged else .unmerged

/-- Classification of a local branch that is neither `main` nor the
current branch: the gone check, then the merge check. -/
def classifyNonSpecialLocal (q : BranchQueries) : BranchStatus :=
  match goneCheck q with
  | some s => s
  | none => mergeCheck q

/-- One iteration of the local-branch loop, source lines 188–266. -/
def classifyLocalEntry (current b : String) (q : BranchQueries) : BranchStatus :=
  if b = "main" then .empty
  else if b = current then .unmerged
  else classifyNonSpecialLocal q

/-- The filter applied to the raw local listing, source lines 177–187. -/
def keepLocalName (b : String) : Bool :=
  !(strStarts b "heads/" || strStarts b "remotes/" || b = "origin" || b = "HEAD"
    || strEnds b "/HEAD")

/-- `_check_main_branch_status`, source lines 97–114: fetch (a fetch
failure raises `GitError`, which escapes the `except GitCommandError`),
then compare the `main..origin/main` count with `"0"`; a failing count
query is treated as up to date. -/
def checkMainBranchStatusR (o : GitOracle) : Except GitError Bool :=
  if o.fetchOk then
    .ok (match o.behindMainCount with
      | none => true
      | some c => c = "0")
  else
    .error { message := "Failed to fetch from remotes" }

/-- One iteration of the remote-branch loop, source lines 270–303. -/
def remoteLoopStep (o : GitOracle) (acc : List (String × BranchStatus)) (b : String) :
    List (String × BranchStatus) :=
  if strEnds b "/HEAD" then acc
  else if statusHasKey acc b then acc
  else if b = "origin/main" then statusInsert acc b .empty
  else statusInsert acc b (mergeCheck (o.queries b))

/-- `get_branch_status`, source lines 149–307.  The branch-listing
commands raise `GitCommandError`, caught at line 306 and re-raised as
`GitError`; the current-branch lookup and the behind-main check raise
`GitError` directly.  (The Python code reads the remote listing after
the local loop; as the loop itself cannot raise, the resulting value is
identical.) -/
def get_branch_status (o : GitOracle) : Except GitError (List (String × BranchStatus)) :=
  match checkMainBranchStatusR o with
  | .error e => .error e
  | .ok upToDate =>
    if !upToDate then
      .error { message := "Local main branch is behind remote.", needsConfirmation := true }
    else
      match o.currentBranch with
      | none => .error { message := "Failed to get current branch" }
      | some current =>
        match o.localListing with
        | none => .error { message := "Failed to get branch status" }
        | some localsRaw =>
          match o.remoteListing with
          | none => .error { message := "Failed to get branch status" }
          | some remotes =>
            let locals := localsRaw.filter keepLocalName
            let st1 := locals.foldl
              (fun acc b => statusInsert acc b (classifyLocalEntry current b (o.queries b))) []
            .ok (remotes.foldl (remoteLoopStep o) st1)

/-! ## Cleaner: deletion plan (`_get_branches_to_delete`, lines 309–338) -/

/-- Whether the first loop of `_get_branches_to_delete` (lines 315–330)
deletes `name` from the snapshot: the current branch, an
`origin/`-prefixed branch whose stripped name matches a protection
pattern, or any branch whose full name matches one.  Each pattern is
stripped of surrounding whitespace before matching, as in the source. -/
def dropFromPlan (current : String) (protect : List String) (name : String) : Bool :=
  name = current
    || (strStarts name "origin/"
        && protect.any (fun pattern => fnmatchStr (afterSlash name) (pyStrip pattern)))
    || protect.any (fun pattern => fnmatchStr name (pyStrip pattern))

/-- The pure filter of `_get_branches_to_delete` applied to a computed
classification snapshot and current branch (lines 314–338): drop
current/protected branches, then drop `unmerged` branches unless
`force`. -/
def planFilter (status : List (String × BranchStatus)) (current : String)
    (protect : List String) (force : Bool) : List (String × BranchStatus) :=
  let s1 := status.filter (fun p => !dropFromPlan current protect p.1)
  if force then s1 else s1.filter (fun p => !(p.2 = .unmerged))

/-- `_get_branches_to_delete`, lines 309–338: classify, read the current
branch, filter. -/
def get_branches_to_delete (o : GitOracle) (protect : List String) (force : Bool) :
    Except GitError (List (String × BranchStatus)) :=
  match get_branch_status o with
  | .error e => .error e
  | .ok status =>
    match o.currentBranch with
    | none => .error { message := "Failed to get current branch" }
    | some current => .ok (planFilter status current protect force)

/-! ## Cleaner: deletion (`_delete_branch`, lines 340–367, and `clean`,
lines 369–415) -/

/-- A ref-deletion command issued against the repository. -/
inductive RefDeletion where
  | remoteRef (remoteName branchOnRemote : String)
  | localRef (name : String) (forced : Bool)
deriving DecidableEq, Repr

/-- Success of the deletion commands (the remote lookup plus
empty-refspec push, and `git branch -D`). -/
structure DeleteOracle where
  remotePushOk : String → Bool
  localDeleteOk : String → Bool

/-- `_delete_branch`, lines 340–367: refuse `main` and `origin/`-names
whose remainder is `main`; delete `origin/`-prefixed branches with an
empty-refspec push to the remote; delete local branches with
`git branch -D` — always a forced delete (the `status` argument is
received but never consulted).  Returns the success flag together with
the deletion commands issued. -/
def delete_branch (d : DeleteOracle) (name : String) (_status : BranchStatus) :
    Bool × List RefDeletion :=
  if name = "main" || (strStarts name "origin/" && afterSlash name = "main") then
    (false, [])
  else if strStarts name "origin/" then
    (d.remotePushOk (afterSlash name), [.remoteRef (beforeSlash name) (afterSlash name)])
  else
    (d.localDeleteOk name, [.localRef name true])

/-- Result of `clean`: the plan shown to the user (the contents of the
preview table, `[]` when the plan was empty and the source returns
`None`), the names reported deleted, and the deletion commands issued. -/
structure CleanResult where
  plan : List (String × BranchStatus)
  deleted : List String
  deletions : List RefDeletion
deriving DecidableEq, Repr

/-- The body of the deletion loop in `clean` (lines 405–408). -/
def deleteStep (d : DeleteOracle) (acc : List String × List RefDeletion)
    (p : String × BranchStatus) : List String × List RefDeletion :=
  let r := delete_branch d p.1 p.2
  (if r.1 then acc.1 ++ [p.1] else acc.1, acc.2 ++ r.2)

/-- `clean`, lines 369–415: compute the plan; with an empty plan return
nothing; otherwise delete immediately when `interactive` is false, and
return the plan with no mutation when it is true.  (Building the `rich`
preview table is display-only and out of scope; its rows are the plan.) -/
def clean (o : GitOracle) (d : DeleteOracle) (protect : List String)
    (force interactive : Bool) : Except GitError CleanResult :=
  match get_branches_to_delete o protect force with
  | .error e => .error e
  | .ok toDelete =>
    if toDelete.isEmpty then
      .ok { plan := [], deleted := [], deletions := [] }
    else if !interactive then
      .ok { plan := toDelete,
            deleted := (toDelete.foldl (deleteStep d) ([], [])).1,
            deletions := (toDelete.foldl (deleteStep d) ([], [])).2 }
    else
      .ok { plan := toDelete, deleted := [], deletions := [] }

/-! ## Consistency of the git collaborator

The per-branch oracle is, a priori, arbitrary.  Real git guarantees that
whenever a branch's configured upstream ref fails to resolve,
`git branch -vv` reports that upstream as `: gone]`.  Claims about the
merge check are stated under this consistency assumption so that they
are not refuted by oracle answers no git repository can produce. -/

/-- When the configured upstream ref does not resolve, the `-vv` listing
succeeds and carries the `: gone]` marker (git's documented behaviour). -/
def goneConsistentB (q : BranchQueries) : Bool :=
  q.remoteRefResolves
    || (match q.vvListing with
        | none => false
        | some s => strContains s ": gone]")

/-! ## Concrete inputs used by counterexamples and witnesses -/

/-- Per-branch queries that all fail (every command raising
`GitCommandError`) except for an upstream that still resolves. -/
def defaultQ : BranchQueries :=
  { configRemote := none, configMerge := none, remoteRefResolves := true,
    vvListing := none, revListCountSelf := none, revParseTip := none,
    revParseMain := none, ancestorExitOk := false, revListCountRange := none }

/-- A repository on branch `feature/x` with local `main` and remote
`origin/main`, fetch succeeding and local main up to date. -/
def mainInPlanOracle : GitOracle :=
  { fetchOk := true, behindMainCount := some "0", currentBranch := some "feature/x",
    localListing := some ["main", "feature/x"],
    remoteListing := some ["origin/main"],
    queries := fun _ => defaultQ }

/-- Queries of a branch whose tip resolved and is an ancestor of the
main tip, with no remote-tracking configuration. -/
def mergedFeatureQueries : BranchQueries :=
  { configRemote := none, configMerge := none, remoteRefResolves := true,
    vvListing := none, revListCountSelf := none, revParseTip := some "1a2b3c",
    revParseMain := some "9f9f9f", ancestorExitOk := true, revListCountRange := some 0 }

/-- A repository on `main` with one merged branch `feature/old`. -/
def mergedFeatureOracle : GitOracle :=
  { fetchOk := true, behindMainCount := some "0", currentBranch := some "main",
    localListing := some ["main", "feature/old"], remoteListing := some [],
    queries := fun _ => mergedFeatureQueries }

/-- Queries of a branch `feature/x` tracking `origin/feature/x` whose
upstream was deleted: the upstream ref no longer resolves, `branch -vv`
shows the `: gone]` marker, and the branch carries one commit that is
not on `main` (an unpushed commit — `rev-list --count main..feature/x`
is 1, and the branch history has 3 commits in total). -/
def goneWithUnpushedQueries : BranchQueries :=
  { configRemote := some "origin", configMerge := some "refs/heads/feature/x",
    remoteRefResolves := false,
    vvListing := some "  feature/x 1a2b3c [origin/feature/x: gone] wip",
    revListCountSelf := some 3, revParseTip := some "1a2b3c",
    revParseMain := some "9f9f9f", ancestorExitOk := false, revListCountRange := some 1 }

/-- Deletion commands that always succeed. -/
def alwaysOkDelete : DeleteOracle :=
  { remotePushOk := fun _ => true, localDeleteOk := fun _ => true }

/-- A repository where everything succeeds except listing the local
branches: fetch ok, local main up to date, current branch resolved. -/
def listingFailureOracle : GitOracle :=
  { fetchOk := true, behindMainCount := some "0", currentBranch := some "main",
    localListing := none, remoteListing := some [], queries := fun _ => defaultQ }

/-- Per-branch queries in which every per-branch command fails after the
upstream ref stopped resolving. -/
def degradedQueries : BranchQueries :=
  { configRemote := some "origin", configMerge := some "refs/heads/x",
    remoteRefResolves := false, vvListing := none, revListCountSelf := none,
    revParseTip := none, revParseMain := none, ancestorExitOk := false,
    revListCountRange := none }

/-- A repository whose global operations succeed while every per-branch
query fails. -/
def degradedOracle : GitOracle :=
  { fetchOk := true, behindMainCount := some "0", currentBranch := some "main",
    localListing := some ["main", "feature/a", "feature/b"],
    remoteListing := some ["origin/z"],
    queries := fun _ => degradedQueries }

/-- Whether a ref-deletion command is a remote deletion or a forced
local deletion (`git branch -D`). -/
def isForcedLocalOrRemote : RefDeletion → Bool
  | .remoteRef _ _ => true
  | .localRef _ forced => forced

/-! ## Helper lemmas -/

/-- Every entry surviving `planFilter` survived the current/protection
filter of the first loop. -/
theorem mem_planFilter_not_dropped {status : List (String × BranchStatus)}
    {current : String} {protect : List String} {force : Bool}
    {p : String × BranchStatus}
    (hp : p ∈ planFilter status current protect force) :
    dropFromPlan current protect p.1 = false := by
  unfold planFilter at hp
  cases force with
  | true =>
    simp only [if_pos rfl] at hp
    simpa using (List.mem_filter.mp hp).2
  | false =>
    simp only [Bool.false_eq_true, if_false] at hp
    have h1 := (List.mem_filter.mp hp).1
    simpa using (List.mem_filter.mp h1).2

/-- A name the first loop drops is absent from the final plan. -/
theorem statusLookup_planFilter_eq_none {status : List (String × BranchStatus)}
    {current name : String} {protect : List String} {force : Bool}
    (hdrop : dropFromPlan current protect name = true) :
    statusLookup (planFilter status current protect force) name = none := by
  unfold statusLookup
  rw [Option.map_eq_none', List.find?_eq_none]
  intro p hp hname
  have hnd := mem_planFilter_not_dropped hp
  simp only [decide_eq_true_eq] at hname
  rw [hname, hdrop] at hnd
  cases hnd

/-- `_delete_branch` evaluates to a refusal on `main`. -/
theorem delete_branch_main (d : DeleteOracle) (st : BranchStatus) :
    delete_branch d "main" st = (false, []) := rfl

/-- `_delete_branch` evaluates to a refusal on `origin/main`. -/
theorem delete_branch_origin_main (d : DeleteOracle) (st : BranchStatus) :
    delete_branch d "origin/main" st = (false, []) := rfl

/-- A name accumulated by the deletion loop of `clean` was already
accumulated or had a successful `_delete_branch` call. -/
theorem mem_foldl_deleteStep (d : DeleteOracle) :
    ∀ (l : List (String × BranchStatus)) (acc : List String × List RefDeletion)
      (n : String), n ∈ (l.foldl (deleteStep d) acc).1 →
      n ∈ acc.1 ∨ ∃ st, (delete_branch d n st).1 = true := by
  intro l
  induction l with
  | nil => intro acc n hn; exact .inl hn
  | cons p t ih =>
    intro acc n hn
    rw [List.foldl_cons] at hn
    rcases ih (deleteStep d acc p) n hn with h | h
    · simp only [deleteStep] at h
      split at h
      · rcases List.mem_append.mp h with h1 | h1
        · exact .inl h1
        · rename_i hb
          have : n = p.1 := List.mem_singleton.mp h1
          exact .inr ⟨p.2, by rw [this]; exact hb⟩
      · exact .inl h
    · exact .inr h

/-- Under git's gone-marker consistency, the gone-detection step either
falls through or classifies `gone`. -/
theorem goneCheck_of_consistent (q : BranchQueries)
    (hcons : goneConsistentB q = true) :
    goneCheck q = none ∨ goneCheck q = some .gone := by
  obtain ⟨cr, cm, rr, vv, cs, tip, mn, anc, rng⟩ := q
  unfold goneConsistentB at hcons
  unfold goneCheck
  cases cr with
  | none => exact .inl rfl
  | some tc =>
    by_cases htc : tc = ""
    · simp [htc]
    · cases cm with
      | none => simp [htc]
      | some mr =>
        by_cases hmr : strStarts mr "refs/heads/"
        · cases rr with
          | true => simp [htc, hmr]
          | false =>
            cases vv with
            | none => simp at hcons
            | some s =>
              simp at hcons
              simp [htc, hmr, hcons]
        · simp [htc, hmr]

/-- When the gone-detection step classified the branch (did not fall
through), its result is exactly the value of its inner `-vv`-listing
match. -/
theorem goneCheck_isSome_val (q : BranchQueries) (h : goneCheck q ≠ none) :
    goneCheck q = some
      (match q.vvListing with
       | none => .unmerged
       | some branchInfo =>
         if strContains branchInfo ": gone]" then .gone
         else
           match q.revListCountSelf with
           | none => .unmerged
           | some unpushed => if unpushed = 0 then .gone else .unmerged) := by
  obtain ⟨cr, cm, rr, vv, cs, tip, mn, anc, rng⟩ := q
  unfold goneCheck at h ⊢
  cases cr with
  | none => exact absurd rfl h
  | some tc =>
    by_cases htc : tc = ""
    · simp [htc] at h
    · cases cm with
      | none => simp [htc] at h
      | some mr =>
        by_cases hmr : strStarts mr "refs/heads/"
        · cases rr with
          | true => simp [htc, hmr] at h
          | false => simp [htc, hmr]
        · simp [htc, hmr] at h

/-! ## Claims -/

/-- C6: for every classification snapshot, protection-pattern list, and
force flag, the deletion plan computed by `_get_branches_to_delete`
never contains the current branch. -/
theorem plan_excludes_current (status : List (String × BranchStatus))
    (current : String) (protect : List String) (force : Bool) :
    statusLookup (planFilter status current protect force) current = none := by
  apply statusLookup_planFilter_eq_none
  unfold dropFromPlan
  simp

/-- C7: a branch whose short name (the name with any `origin/` marker
stripped) glob-matches a protection pattern — as the code matches it,
after stripping surrounding whitespace from the pattern — is absent from
the deletion plan. -/
theorem short_name_protection (status : List (String × BranchStatus))
    (current : String) (protect : List String) (force : Bool)
    (pat name : String) (hp : pat ∈ protect)
    (hm : fnmatchStr (shortName name) (pyStrip pat) = true) :
    statusLookup (planFilter status current protect force) name = none := by
  apply statusLookup_planFilter_eq_none
  unfold dropFromPlan
  by_cases hs : strStarts name "origin/"
  · have hany : protect.any (fun pattern => fnmatchStr (afterSlash name) (pyStrip pattern)) = true := by
      rw [List.any_eq_true]
      exact ⟨pat, hp, by simpa [shortName, hs] using hm⟩
    simp [hs, hany]
  · have hany : protect.any (fun pattern => fnmatchStr name (pyStrip pattern)) = true := by
      rw [List.any_eq_true]
      exact ⟨pat, hp, by simpa [shortName, hs] using hm⟩
    simp [hany]

/-- C7 witness: the pattern `feature/*` removes both the local branch
`feature/x` and the remote-tracking branch `origin/feature/x` from the
plan, and the character-class pattern `feature/[ab]` removes
`feature/a`. -/
theorem short_name_protection_witness :
    statusLookup
      (planFilter [("feature/x", .merged), ("origin/feature/x", .merged)]
        "main" ["feature/*"] true) "feature/x" = none
    ∧ statusLookup
      (planFilter [("feature/x", .merged), ("origin/feature/x", .merged)]
        "main" ["feature/*"] true) "origin/feature/x" = none
    ∧ statusLookup
      (planFilter [("feature/a", .merged)] "main" ["feature/[ab]"] true)
      "feature/a" = none :=
  ⟨short_name_protection _ "main" ["feature/*"] true "feature/*" "feature/x"
      (by decide) (by decide),
   short_name_protection _ "main" ["feature/*"] true "feature/*" "origin/feature/x"
      (by decide) (by decide),
   short_name_protection _ "main" ["feature/[ab]"] true "feature/[ab]" "feature/a"
      (by decide) (by decide)⟩

/-- C10: protection patterns are also matched against a branch's full
name (whitespace-stripped pattern): a full-name glob match removes the
branch from the deletion plan, so `origin/*` removes every
remote-tracking branch. -/
theorem full_name_protection (status : List (String × BranchStatus))
    (current : String) (protect : List String) (force : Bool)
    (pat name : String) (hp : pat ∈ protect)
    (hm : fnmatchStr name (pyStrip pat) = true) :
    statusLookup (planFilter status current protect force) name = none := by
  apply statusLookup_planFilter_eq_none
  unfold dropFromPlan
  have hany : protect.any (fun pattern => fnmatchStr name (pyStrip pattern)) = true := by
    rw [List.any_eq_true]
    exact ⟨pat, hp, hm⟩
  simp [hany]

/-- C10 witness: the pattern `origin/*` removes the remote-tracking
branch `origin/feature/y` from the plan even though its stripped short
name `feature/y` does not match the pattern, and the character-class
pattern `origin/feature/[xy]` removes `origin/feature/x` by full-name
match. -/
theorem full_name_protection_witness :
    statusLookup
      (planFilter [("origin/feature/y", .merged)] "main" ["origin/*"] false)
      "origin/feature/y" = none
    ∧ fnmatchStr (shortName "origin/feature/y") "origin/*" = false
    ∧ statusLookup
      (planFilter [("origin/feature/x", .merged)] "main"
        ["origin/feature/[xy]"] false) "origin/feature/x" = none :=
  ⟨full_name_protection _ "main" ["origin/*"] false "origin/*" "origin/feature/y"
      (by decide) (by decide),
   by decide,
   full_name_protection _ "main" ["origin/feature/[xy]"] false
      "origin/feature/[xy]" "origin/feature/x" (by decide) (by decide)⟩

/-- C8: for every status value, `_delete_branch` on `main`, or on an
`origin/`-prefixed name whose remainder after the first slash is `main`,
returns `False` and issues no ref-deletion command. -/
theorem delete_branch_refuses_main (d : DeleteOracle) (st : BranchStatus)
    (name : String)
    (h : name = "main" ∨ (strStarts name "origin/" = true ∧ afterSlash name = "main")) :
    delete_branch d name st = (false, []) := by
  unfold delete_branch
  rcases h with rfl | ⟨h1, h2⟩
  · simp
  · simp [h1, h2]

/-- C8 witness: `_delete_branch` refuses `origin/main` with a `gone`
status and deletes nothing. -/
theorem delete_branch_refuses_main_witness :
    delete_branch alwaysOkDelete "origin/main" BranchStatus.gone = (false, []) :=
  delete_branch_refuses_main alwaysOkDelete .gone "origin/main"
    (Or.inr ⟨by decide, by decide⟩)

/-- C1 counterexample: with an empty protection list and `force=True`,
on a repository whose current branch is `feature/x`, the deletion plan
computed by `_get_branches_to_delete` contains both `main` and
`origin/main` (with the sentinel status) — they are not filtered out of
the plan. -/
theorem main_in_plan_counterexample :
    get_branches_to_delete mainInPlanOracle [] true
      = .ok [("main", .empty), ("origin/main", .empty)] := rfl

/-- C1 (amended): `main` and `origin/main` can remain in the deletion
plan, but they are never actually deleted — a branch name reported
deleted by `clean` is neither `main` nor `origin/main`, because
`_delete_branch` refuses both. -/
theorem clean_never_deletes_main (o : GitOracle) (d : DeleteOracle)
    (protect : List String) (force interactive : Bool) (r : CleanResult)
    (h : clean o d protect force interactive = .ok r)
    (n : String) (hn : n ∈ r.deleted) :
    n ≠ "main" ∧ n ≠ "origin/main" := by
  unfold clean at h
  split at h
  · exact Except.noConfusion h
  · split at h
    · cases h
      simp at hn
    · split at h
      · cases h
        rcases mem_foldl_deleteStep d _ ([], []) n hn with h0 | ⟨st, hst⟩
        · simp at h0
        · constructor
          · rintro rfl
            rw [delete_branch_main d st] at hst
            simp at hst
          · rintro rfl
            rw [delete_branch_origin_main d st] at hst
            simp at hst
      · cases h
        simp at hn

/-- C1 witness: on a repository with one merged branch `feature/old`,
non-interactive `clean` deletes it, and the theorem certifies the name
is neither `main` nor `origin/main`. -/
theorem clean_never_deletes_main_witness :
    ("feature/old" : String) ≠ "main" ∧ ("feature/old" : String) ≠ "origin/main" :=
  clean_never_deletes_main mergedFeatureOracle alwaysOkDelete [] false false
    (CleanResult.mk [("feature/old", .merged)] ["feature/old"]
      [.localRef "feature/old" true])
    rfl "feature/old" (by decide)

/-- C2: evaluation at the failing input — a branch whose upstream was
deleted (the `-vv` listing carries the `: gone]` marker) and which has
one unpushed commit is classified `gone` by the code, not `unmerged`:
the marker branch never consults the unpushed-commit count. -/
theorem gone_marker_overrides_unpushed :
    classifyNonSpecialLocal goneWithUnpushedQueries = .gone
    ∧ goneWithUnpushedQueries.revListCountRange = some 1 := by decide

/-- C3 counterexample: deleting a branch whose planned status is
`merged` issues a forced local delete (`git branch -D`), not the
non-forcing delete the claim requires. -/
theorem merged_delete_forced_counterexample :
    delete_branch alwaysOkDelete "feature/x" BranchStatus.merged
      = (true, [RefDeletion.localRef "feature/x" true]) := by decide

/-- C3 (amended): every local ref deletion issued by `_delete_branch` is
a forced delete, regardless of the branch's planned status (the status
argument is never consulted) and of any force flag. -/
theorem local_delete_always_forced (d : DeleteOracle) (name : String)
    (st : BranchStatus) (a : RefDeletion)
    (h : a ∈ (delete_branch d name st).2) :
    isForcedLocalOrRemote a = true := by
  unfold delete_branch at h
  split at h
  · simp at h
  · split at h
    · rw [List.mem_singleton] at h
      rw [h]
      rfl
    · rw [List.mem_singleton] at h
      rw [h]
      rfl

/-- C3 witness: the command issued for the merged branch `feature/x` is
a forced local delete. -/
theorem local_delete_always_forced_witness :
    isForcedLocalOrRemote (RefDeletion.localRef "feature/x" true) = true :=
  local_delete_always_forced alwaysOkDelete "feature/x" .merged
    (.localRef "feature/x" true) (by decide)

/-- C4: for a branch that is not `main` and not the current branch, on a
git-consistent oracle, when the branch is not classified `gone`: a
resolved tip that is an ancestor of the resolved main tip classifies
`merged`; otherwise a zero `main..branch` count classifies `merged`, a
positive count classifies `unmerged`, and a failing query (an
unresolved tip or a failing count) classifies `unmerged`. -/
theorem merge_check_classification (current b : String) (q : BranchQueries)
    (hb : b ≠ "main") (hcur : b ≠ current)
    (hcons : goneConsistentB q = true)
    (hng : classifyLocalEntry current b q ≠ .gone) :
    ((q.revParseTip = none ∨ q.revParseMain = none) →
        classifyLocalEntry current b q = .unmerged)
    ∧ (∀ t m, q.revParseTip = some t → q.revParseMain = some m →
        ((q.ancestorExitOk = true → classifyLocalEntry current b q = .merged)
         ∧ (q.ancestorExitOk = false →
             ((q.revListCountRange = some 0 →
                 classifyLocalEntry current b q = .merged)
              ∧ (∀ n, q.revListCountRange = some n → 0 < n →
                  classifyLocalEntry current b q = .unmerged)
              ∧ (q.revListCountRange = none →
                  classifyLocalEntry current b q = .unmerged))))) := by
  have hentry : classifyLocalEntry current b q = classifyNonSpecialLocal q := by
    unfold classifyLocalEntry
    simp [hb, hcur]
  have hgc : goneCheck q = none := by
    rcases goneCheck_of_consistent q hcons with h | h
    · exact h
    · exfalso
      apply hng
      rw [hentry]
      unfold classifyNonSpecialLocal
      rw [h]
  have hmc : classifyLocalEntry current b q = mergeCheck q := by
    rw [hentry]
    unfold classifyNonSpecialLocal
    rw [hgc]
  rw [hmc]
  constructor
  · rintro (h | h)
    · simp [mergeCheck, h]
    · cases htip : q.revParseTip with
      | none => simp [mergeCheck, htip]
      | some t => simp [mergeCheck, htip, h]
  · intro t m ht hm
    constructor
    · intro ha
      simp [mergeCheck, ht, hm, ha]
    · intro ha
      refine ⟨?_, ?_, ?_⟩
      · intro hz
        simp [mergeCheck, ht, hm, ha, hz]
      · intro n hn hpos
        have hne : ¬n = 0 := Nat.pos_iff_ne_zero.mp hpos
        simp [mergeCheck, ht, hm, ha, hn, hne]
      · intro hz
        simp [mergeCheck, ht, hm, ha, hz]

/-- C4 witness: a branch with no remote-tracking configuration whose
resolved tip is an ancestor of the resolved main tip is classified
`merged`. -/
theorem merge_check_classification_witness :
    classifyLocalEntry "main" "feature/w" mergedFeatureQueries
      = BranchStatus.merged :=
  ((merge_check_classification "main" "feature/w" mergedFeatureQueries
      (by decide) (by decide) (by decide) (by decide)).2
    "1a2b3c" "9f9f9f" rfl rfl).1 rfl

/-- C5 counterexample: a repository where the repository opens, the
current-branch lookup succeeds and the main-behind-remote check passes,
yet `get_branch_status` still aborts — because listing the local
branches fails.  The claim's list of fatal causes is incomplete. -/
theorem abort_on_listing_failure_counterexample :
    exceptOk (get_branch_status listingFailureOracle) = false
    ∧ checkMainBranchStatusR listingFailureOracle = .ok true
    ∧ listingFailureOracle.currentBranch = some "main" :=
  ⟨rfl, rfl, rfl⟩

/-- C5 (amended): failures of queries used to classify an individual
branch degrade that branch's classification to `unmerged` at every
terminal failure point, and never abort — first conjunct: whenever the
fetch and main-behind check pass, the current-branch lookup succeeds,
and both branch enumerations succeed, the whole classification succeeds
for every per-branch query oracle; remaining conjuncts: a branch that
reached the merge check classifies `unmerged` when either tip fails to
resolve or the `main..branch` count fails, and a branch on the
gone-detection path classifies `unmerged` when the `-vv` listing fails,
or when the listing lacks the gone marker and the commit count fails. -/
theorem per_branch_failures_degrade_not_abort :
    (∀ (o : GitOracle) (c : String) (ls rs : List String),
        checkMainBranchStatusR o = .ok true → o.currentBranch = some c →
        o.localListing = some ls → o.remoteListing = some rs →
        exceptOk (get_branch_status o) = true)
    ∧ (∀ q : BranchQueries, goneCheck q = none →
        (q.revParseTip = none ∨ q.revParseMain = none
          ∨ (q.ancestorExitOk = false ∧ q.revListCountRange = none)) →
        classifyNonSpecialLocal q = .unmerged)
    ∧ (∀ q : BranchQueries, goneCheck q ≠ none → q.vvListing = none →
        classifyNonSpecialLocal q = .unmerged)
    ∧ (∀ (q : BranchQueries) (s : String), goneCheck q ≠ none →
        q.vvListing = some s → strContains s ": gone]" = false →
        q.revListCountSelf = none →
        classifyNonSpecialLocal q = .unmerged) := by
  refine ⟨?_, ?_, ?_, ?_⟩
  · intro o c ls rs hmain hcur hloc hrem
    unfold get_branch_status
    rw [hmain, hcur, hloc, hrem]
    simp [exceptOk]
  · intro q hgc hfail
    unfold classifyNonSpecialLocal
    rw [hgc]
    rcases hfail with h | h | ⟨ha, hr⟩
    · simp [mergeCheck, h]
    · cases htip : q.revParseTip with
      | none => simp [mergeCheck, htip]
      | some t => simp [mergeCheck, htip, h]
    · cases htip : q.revParseTip with
      | none => simp [mergeCheck, htip]
      | some t =>
        cases hmn : q.revParseMain with
        | none => simp [mergeCheck, htip, hmn]
        | some m => simp [mergeCheck, htip, hmn, ha, hr]
  · intro q hne hvv
    have hval := goneCheck_isSome_val q hne
    rw [hvv] at hval
    unfold classifyNonSpecialLocal
    rw [hval]
  · intro q s hne hvv hmark hcs
    have hval := goneCheck_isSome_val q hne
    rw [hvv, hcs] at hval
    unfold classifyNonSpecialLocal
    rw [hval]
    simp [hmark]

/-- C5 witness: a repository whose global operations succeed while every
per-branch query fails still classifies successfully, and the branch
whose `-vv` listing failed after its upstream disappeared is classified
`unmerged`. -/
theorem per_branch_failures_degrade_not_abort_witness :
    exceptOk (get_branch_status degradedOracle) = true
    ∧ classifyNonSpecialLocal degradedQueries = .unmerged :=
  ⟨per_branch_failures_degrade_not_abort.1 degradedOracle "main"
      ["main", "feature/a", "feature/b"] ["origin/z"] rfl rfl rfl rfl,
   per_branch_failures_degrade_not_abort.2.2.1 degradedQueries (by decide) rfl⟩

/-- C9: `clean` with `interactive=True` performs no branch deletion at
all — it returns an empty deleted list and issues no ref-deletion
command. -/
theorem interactive_clean_no_mutation (o : GitOracle) (d : DeleteOracle)
    (protect : List String) (force : Bool) (r : CleanResult)
    (h : clean o d protect force true = .ok r) :
    r.deleted = [] ∧ r.deletions = [] := by
  unfold clean at h
  split at h
  · exact Except.noConfusion h
  · split at h
    · cases h
      exact ⟨rfl, rfl⟩
    · split at h
      · rename_i hcond
        simp at hcond
      · cases h
        exact ⟨rfl, rfl⟩

/-- C9 witness: interactive `clean` on a repository with one merged
branch plans it but deletes nothing. -/
theorem interactive_clean_no_mutation_witness :
    (CleanResult.mk [("feature/old", BranchStatus.merged)] [] []).deleted = []
    ∧ (CleanResult.mk [("feature/old", BranchStatus.merged)] [] []).deletions = [] :=
  interactive_clean_no_mutation mergedFeatureOracle alwaysOkDelete [] false
    (CleanResult.mk [("feature/old", BranchStatus.merged)] [] []) rfl

end Arborist
